import Mathlib

/-!
# iptables argument builders

A shallow embedding of `iptables.go`: the rule builder
`SrcIpNetDestTcpPortRule`, its factory, the pure argument-vector
functions of `IptablesCommandArgsBuilder`, and `IptablesManager`.

* A Go `[]string` is a `List String`; `append(xs, a, b)` is `xs ++ [a, b]`.
* A method with a pointer receiver that mutates the receiver is a function
  from the receiver's state to its new state.
* `*net.IPNet` is `Option IPNet`; `net.IPNet.String` belongs to Go's
  standard library and is taken as a parameter `str`.
* The process runner `exec.Cmd` is an external package and is taken as a
  parameter: any implementation of `SetCmd` and `RunWithCombinedOutput`.
* An `int64` is an `Int`; `fmt.Sprintf("%d", num)` is embedded from the
  base-10 loop of the standard library's integer formatter.
-/

namespace Iptables

/-! ## Data model -/

/-- The constant `Accept`. -/
def Accept : String := "ACCEPT"

/-- The constant `Drop`. -/
def Drop : String := "DROP"

/-- Go's `net.IPNet`: an address and a mask, both byte sequences. -/
structure IPNet where
  IP : List Nat
  Mask : List Nat
deriving DecidableEq, Repr

/-- The interface `RuleBuilder` over an implementation with state `σ`: four
setters that mutate the receiver, and `GetSpec`, which returns a slice and
(for an arbitrary implementation) may touch the receiver as well. -/
structure RuleBuilder (σ : Type) where
  SetSource : σ → σ
  SetDestination : σ → σ
  SetComment : σ → σ
  SetAction : σ → σ
  GetSpec : σ → List String × σ

/-- The struct `SrcIpNetDestTcpPortRule`. -/
structure SrcIpNetDestTcpPortRule where
  src : Option IPNet
  port : String
  comment : String
  action : String
  spec : List String
deriving DecidableEq, Repr

namespace SrcIpNetDestTcpPortRule

/-- Method `SetSource`: appends `-s <src.String()>` when `src` is not nil. -/
def SetSource (str : IPNet → String) (s : SrcIpNetDestTcpPortRule) :
    SrcIpNetDestTcpPortRule :=
  match s.src with
  | some n => { s with spec := s.spec ++ ["-s", str n] }
  | none => s

/-- Method `SetDestination`: appends `-p tcp --dport <port>` when `port != ""`. -/
def SetDestination (s : SrcIpNetDestTcpPortRule) : SrcIpNetDestTcpPortRule :=
  if s.port ≠ "" then { s with spec := s.spec ++ ["-p", "tcp", "--dport", s.port] } else s

/-- Method `SetAction`: appends `-j <action>`, unconditionally. -/
def SetAction (s : SrcIpNetDestTcpPortRule) : SrcIpNetDestTcpPortRule :=
  { s with spec := s.spec ++ ["-j", s.action] }

/-- Method `SetComment`: appends `-m comment --comment <comment>` when `comment != ""`. -/
def SetComment (s : SrcIpNetDestTcpPortRule) : SrcIpNetDestTcpPortRule :=
  if s.comment ≠ "" then
    { s with spec := s.spec ++ ["-m", "comment", "--comment", s.comment] }
  else s

/-- Method `GetSpec`: returns the `spec` field; the receiver is not modified. -/
def GetSpec (s : SrcIpNetDestTcpPortRule) : List String × SrcIpNetDestTcpPortRule :=
  (s.spec, s)

/-- The method set of `*SrcIpNetDestTcpPortRule` as a `RuleBuilder`. -/
def methods (str : IPNet → String) : RuleBuilder SrcIpNetDestTcpPortRule where
  SetSource := SetSource str
  SetDestination := SetDestination
  SetComment := SetComment
  SetAction := SetAction
  GetSpec := GetSpec

end SrcIpNetDestTcpPortRule

/-- Factory `NewSrcIpNetDestTcpPortRuleBuilder`: the struct literal (with a nil `spec`)
followed by the four setter calls, in the order of the source. -/
def NewSrcIpNetDestTcpPortRuleBuilder (str : IPNet → String) (src : Option IPNet)
    (port comment action : String) : SrcIpNetDestTcpPortRule :=
  let s : SrcIpNetDestTcpPortRule :=
    { src := src, port := port, comment := comment, action := action, spec := [] }
  let s := s.SetSource str
  let s := s.SetDestination
  let s := s.SetComment
  let s := s.SetAction
  s

/-! ## Formatting of positions -/

/-- The byte `'0' + d` written by the decimal formatter for a digit `d`. -/
def digitByte (d : Nat) : Char := Char.ofNat (48 + d)

/-- The base-10 loop of Go's integer formatter, writing right to left in front
of `buf`: `for u >= 10 { next := u / 10; buf[i] = '0' + u - next*10; u = next }`
and then the leading digit. -/
def fmtUnsigned (u : Nat) (buf : List Char) : List Char :=
  if 10 ≤ u then fmtUnsigned (u / 10) (digitByte (u - u / 10 * 10) :: buf)
  else digitByte u :: buf
termination_by u
decreasing_by omega

/-- Go's `fmt.Sprintf("%d", num)` for an `int64`: the magnitude in base 10,
preceded by `-` when `num` is negative. -/
def sprintfD (num : Int) : String :=
  String.mk (if num < 0 then '-' :: fmtUnsigned num.natAbs [] else fmtUnsigned num.natAbs [])

/-- The range of Go's `int64`. -/
def isInt64 (n : Int) : Prop := -(2 : Int) ^ 63 ≤ n ∧ n < (2 : Int) ^ 63

instance (n : Int) : Decidable (isInt64 n) := by
  unfold isInt64; infer_instance

/-! ## `IptablesCommandArgsBuilder` -/

namespace IptablesCommandArgsBuilder

/-- Method `CheckChainExist`: `[]string{"-L", chain, "-n"}`. -/
def CheckChainExist (chain : String) : List String :=
  ["-L", chain, "-n"]

/-- Method `CheckRuleExist`: `append([]string{"-C", chain}, rule.GetSpec()...)`. -/
def CheckRuleExist {σ : Type} (chain : String) (rule : RuleBuilder σ) (st : σ) :
    List String × σ :=
  let r := rule.GetSpec st
  (["-C", chain] ++ r.1, r.2)

/-- Method `NewChain`: `[]string{"-N", chain}`. -/
def NewChain (chain : String) : List String :=
  ["-N", chain]

/-- Method `AppendRule`: `append([]string{"-A", chain}, rule.GetSpec()...)`. -/
def AppendRule {σ : Type} (chain : String) (rule : RuleBuilder σ) (st : σ) :
    List String × σ :=
  let r := rule.GetSpec st
  (["-A", chain] ++ r.1, r.2)

/-- Method `InsertRule`: `append([]string{"-I", chain, Sprintf("%d", num)}, rule.GetSpec()...)`. -/
def InsertRule {σ : Type} (chain : String) (num : Int) (rule : RuleBuilder σ) (st : σ) :
    List String × σ :=
  let r := rule.GetSpec st
  (["-I", chain, sprintfD num] ++ r.1, r.2)

/-- Method `ReplaceRule`: `append([]string{"-R", chain, Sprintf("%d", num)}, rule.GetSpec()...)`. -/
def ReplaceRule {σ : Type} (chain : String) (num : Int) (rule : RuleBuilder σ) (st : σ) :
    List String × σ :=
  let r := rule.GetSpec st
  (["-R", chain, sprintfD num] ++ r.1, r.2)

/-- Method `DeleteRule`: `append([]string{"-D", chain}, rule.GetSpec()...)`. -/
def DeleteRule {σ : Type} (chain : String) (rule : RuleBuilder σ) (st : σ) :
    List String × σ :=
  let r := rule.GetSpec st
  (["-D", chain] ++ r.1, r.2)

/-- Method `DeleteRuleByNum`: `[]string{"-D", chain, Sprintf("%d", num)}`. -/
def DeleteRuleByNum (chain : String) (num : Int) : List String :=
  ["-D", chain, sprintfD num]

end IptablesCommandArgsBuilder

/-! ## `IptablesManager` -/

/-- The process runner `exec.Cmd` of the package `github.com/riete/exec`, as far
as the manager uses it: `SetCmd(name, args...)` stores the command on the runner,
`RunWithCombinedOutput()` runs it and returns the combined output text and an
error (`none` is Go's `nil`). The package is an external dependency, so a runner
is any implementation of these two methods over its own state `ρ`, with any
error type `ε`. -/
structure CmdRunner (ρ ε : Type) where
  SetCmd : ρ → String → List String → ρ
  RunWithCombinedOutput : ρ → (String × Option ε) × ρ

/-- The struct `IptablesManager`: the field `r` is the runner's state; the field
`c` points to the empty struct `IptablesCommandArgsBuilder` and carries nothing. -/
structure IptablesManager (ρ : Type) where
  r : ρ

namespace IptablesManager

/-- Method `run`: `i.r.SetCmd("iptables", args...)` and then
`return i.r.RunWithCombinedOutput()`. -/
def run {ρ ε : Type} (cmd : CmdRunner ρ ε) (i : IptablesManager ρ) (args : List String) :
    (String × Option ε) × IptablesManager ρ :=
  let r := cmd.SetCmd i.r "iptables" args
  let out := cmd.RunWithCombinedOutput r
  (out.1, { r := out.2 })

/-- Method `ChainExist`: `_, err := i.run(i.c.CheckChainExist(chain)...)` and
`return err == nil`. -/
def ChainExist {ρ ε : Type} (cmd : CmdRunner ρ ε) (i : IptablesManager ρ) (chain : String) :
    Bool × IptablesManager ρ :=
  let out := run cmd i (IptablesCommandArgsBuilder.CheckChainExist chain)
  (out.1.2.isNone, out.2)

/-- Method `RuleExist`: `_, err := i.run(i.c.CheckRuleExist(chain, rule)...)` and
`return err == nil`. The argument vector is built, calling `rule.GetSpec()`, before
the runner is touched. -/
def RuleExist {ρ ε σ : Type} (cmd : CmdRunner ρ ε) (i : IptablesManager ρ) (chain : String)
    (rule : RuleBuilder σ) (st : σ) : Bool × σ × IptablesManager ρ :=
  let args := IptablesCommandArgsBuilder.CheckRuleExist chain rule st
  let out := run cmd i args.1
  (out.1.2.isNone, args.2, out.2)

/-- Method `NewChain`: `return i.run(i.c.NewChain(chain)...)`. -/
def NewChain {ρ ε : Type} (cmd : CmdRunner ρ ε) (i : IptablesManager ρ) (chain : String) :
    (String × Option ε) × IptablesManager ρ :=
  run cmd i (IptablesCommandArgsBuilder.NewChain chain)

/-- Method `AppendRule`: `return i.run(i.c.AppendRule(chain, rule)...)`. -/
def AppendRule {ρ ε σ : Type} (cmd : CmdRunner ρ ε) (i : IptablesManager ρ) (chain : String)
    (rule : RuleBuilder σ) (st : σ) : (String × Option ε) × σ × IptablesManager ρ :=
  let args := IptablesCommandArgsBuilder.AppendRule chain rule st
  let out := run cmd i args.1
  (out.1, args.2, out.2)

/-- Method `InsertRule`: `return i.run(i.c.InsertRule(chain, num, rule)...)`. -/
def InsertRule {ρ ε σ : Type} (cmd : CmdRunner ρ ε) (i : IptablesManager ρ) (chain : String)
    (num : Int) (rule : RuleBuilder σ) (st : σ) :
    (String × Option ε) × σ × IptablesManager ρ :=
  let args := IptablesCommandArgsBuilder.InsertRule chain num rule st
  let out := run cmd i args.1
  (out.1, args.2, out.2)

/-- Method `ReplaceRule`: `return i.run(i.c.ReplaceRule(chain, num, rule)...)`. -/
def ReplaceRule {ρ ε σ : Type} (cmd : CmdRunner ρ ε) (i : IptablesManager ρ) (chain : String)
    (num : Int) (rule : RuleBuilder σ) (st : σ) :
    (String × Option ε) × σ × IptablesManager ρ :=
  let args := IptablesCommandArgsBuilder.ReplaceRule chain num rule st
  let out := run cmd i args.1
  (out.1, args.2, out.2)

/-- Method `DeleteRule`: `return i.run(i.c.DeleteRule(chain, rule)...)`. -/
def DeleteRule {ρ ε σ : Type} (cmd : CmdRunner ρ ε) (i : IptablesManager ρ) (chain : String)
    (rule : RuleBuilder σ) (st : σ) : (String × Option ε) × σ × IptablesManager ρ :=
  let args := IptablesCommandArgsBuilder.DeleteRule chain rule st
  let out := run cmd i args.1
  (out.1, args.2, out.2)

/-- Method `DeleteRuleByNum`: `return i.run(i.c.DeleteRuleByNum(chain, num)...)`. -/
def DeleteRuleByNum {ρ ε : Type} (cmd : CmdRunner ρ ε) (i : IptablesManager ρ)
    (chain : String) (num : Int) : (String × Option ε) × IptablesManager ρ :=
  run cmd i (IptablesCommandArgsBuilder.DeleteRuleByNum chain num)

end IptablesManager

/-! ## A runner that keeps a log -/

/-- The state of a logging runner: the command stored by the last `SetCmd` and
every command run so far, oldest first. -/
structure RunLog where
  cmd : String × List String
  ran : List (String × List String)
deriving DecidableEq, Repr

/-- A process runner that answers every command through `respond` and records
each run, so that how often and with what a manager operation runs a program can
be read off its state. -/
def loggingRunner {ε : Type} (respond : String → List String → String × Option ε) :
    CmdRunner RunLog ε where
  SetCmd := fun r name args => { r with cmd := (name, args) }
  RunWithCombinedOutput := fun r => (respond r.cmd.1 r.cmd.2, { r with ran := r.ran ++ [r.cmd] })

/-! ## Rendering of an IPv4 network -/

/-- The loop `for v&0x80 != 0 { n++; v <<= 1 }` of the standard library's
`simpleMaskLength` on one mask byte `v`, giving `n` and `v` after the loop. A byte
leaves the loop after at most eight rounds, which is the fuel it is called with. -/
def maskByteOnes : Nat → Nat → Nat → Nat × Nat
  | 0, v, n => (n, v)
  | fuel + 1, v, n =>
    if v &&& 0x80 ≠ 0 then maskByteOnes fuel ((v <<< 1) % 256) (n + 1) else (n, v)

/-- Go's `simpleMaskLength`: the number of leading one bits of a mask made of one
bits followed only by zero bits; `none` is Go's `-1`, for any other mask. -/
def simpleMaskLength : List Nat → Option Nat
  | [] => some 0
  | v :: rest =>
    if v = 0xff then (simpleMaskLength rest).map (· + 8)
    else
      let r := maskByteOnes 8 v 0
      if r.2 ≠ 0 then none
      else if rest.all (· = 0) then some r.1
      else none

/-- The lower-case hexadecimal rendering of a byte sequence, two digits a byte. -/
def hexString (bs : List Nat) : List Char :=
  let digits := "0123456789abcdef".data
  bs.foldr (fun b acc => digits.getD (b >>> 4) '0' :: digits.getD (b &&& 0xf) '0' :: acc) []

/-- Go's `net.IPNet.String` on an IPv4 network given by a 4-byte address and a
4-byte mask: the address in dotted decimal, a slash, and the number of leading one
bits of the mask (or the mask in hexadecimal when it is not a run of one bits).
Networks of any other shape are not embedded: `none`. -/
def ipv4NetString (n : IPNet) : Option String :=
  match n.IP, n.Mask with
  | [a, b, c, d], [m0, m1, m2, m3] =>
    let addr := fmtUnsigned a [] ++ '.' :: fmtUnsigned b [] ++ '.' :: fmtUnsigned c [] ++
      '.' :: fmtUnsigned d []
    match simpleMaskLength [m0, m1, m2, m3] with
    | some l => some (String.mk (addr ++ '/' :: fmtUnsigned l []))
    | none => some (String.mk (addr ++ '/' :: hexString [m0, m1, m2, m3]))
  | _, _ => none

/-! ## Statements of the specification, as predicates -/

/-- The specification's reading of "a flag group is included only when its field
was non-empty/non-nil", by token occurrence in the spec of the factory's builder. -/
def groupTokensOnlyWhenPresent (str : IPNet → String) (src : Option IPNet)
    (port comment action : String) : Prop :=
  let spec := (NewSrcIpNetDestTcpPortRuleBuilder str src port comment action).GetSpec.1
  ("-s" ∈ spec → src ≠ none) ∧
  ("-p" ∈ spec → port ≠ "") ∧ ("--dport" ∈ spec → port ≠ "") ∧
  ("-m" ∈ spec → comment ≠ "") ∧ ("--comment" ∈ spec → comment ≠ "")

/-- A token is the value of one of the four fields: the rendered source (when
there is one), the port, the comment or the action. -/
def isFieldValue (str : IPNet → String) (src : Option IPNet)
    (port comment action : String) (t : String) : Prop :=
  some t = src.map str ∨ t = port ∨ t = comment ∨ t = action

/-- The value of a string of decimal digits, most significant digit first. -/
def readDigits (cs : List Char) : Nat :=
  cs.foldl (fun acc c => 10 * acc + (c.toNat - 48)) 0

/-- Reading a string back as a base-10 integer: an optional `-` sign followed by
one or more decimal digits; anything else does not read as an integer. -/
def readBase10 (s : String) : Option Int :=
  match s.data with
  | '-' :: cs =>
    if cs ≠ [] ∧ cs.all Char.isDigit = true then some (-(readDigits cs : Int)) else none
  | cs =>
    if cs ≠ [] ∧ cs.all Char.isDigit = true then some (readDigits cs : Int) else none

/-- The specification's "base-10 integer string with no leading zeros or
separators" for `num`: only decimal digits, no leading `0` unless the string is
`0` itself, and reading it back yields `num`. -/
def isPlainDecimalOf (s : String) (num : Int) : Prop :=
  (∀ c ∈ s.data, c.isDigit = true) ∧ (s.data.head? = some '0' → s = "0") ∧
    readBase10 s = some num

/-- The specification's "each setter is a no-op when its corresponding field is
empty/absent", for one builder state. -/
def settersNoOpWhenEmpty (str : IPNet → String) (s : SrcIpNetDestTcpPortRule) : Prop :=
  (s.src = none → (s.SetSource str).GetSpec.1 = s.GetSpec.1) ∧
  (s.port = "" → s.SetDestination.GetSpec.1 = s.GetSpec.1) ∧
  (s.comment = "" → s.SetComment.GetSpec.1 = s.GetSpec.1) ∧
  (s.action = "" → s.SetAction.GetSpec.1 = s.GetSpec.1)

/-- The operations of the `RuleBuilder` capability set. -/
inductive RuleBuilderOp where
  | SetSource
  | SetDestination
  | SetComment
  | SetAction
  | GetSpec
deriving DecidableEq, Repr

/-- One call of an operation on a builder: the builder's state afterwards. -/
def RuleBuilder.call {σ : Type} (rule : RuleBuilder σ) (st : σ) : RuleBuilderOp → σ
  | .SetSource => rule.SetSource st
  | .SetDestination => rule.SetDestination st
  | .SetComment => rule.SetComment st
  | .SetAction => rule.SetAction st
  | .GetSpec => (rule.GetSpec st).2

/-- A sequence of calls on a builder, left to right. -/
def RuleBuilder.calls {σ : Type} (rule : RuleBuilder σ) (st : σ) (ops : List RuleBuilderOp) : σ :=
  ops.foldl rule.call st

/-- The tokens one call appends to the spec of a `SrcIpNetDestTcpPortRule` with the
given fields: the operation's flag group, or nothing for GetSpec and for a setter
whose field is empty/absent. -/
def appendedBy (str : IPNet → String) (src : Option IPNet) (port comment action : String) :
    RuleBuilderOp → List String
  | .SetSource =>
    match src with
    | some n => ["-s", str n]
    | none => []
  | .SetDestination => if port ≠ "" then ["-p", "tcp", "--dport", port] else []
  | .SetComment => if comment ≠ "" then ["-m", "comment", "--comment", comment] else []
  | .SetAction => ["-j", action]
  | .GetSpec => []

/-! ## The rule builder -/

/-- The spec of the factory's builder, group by group. -/
theorem newBuilder_spec (str : IPNet → String) (src : Option IPNet)
    (port comment action : String) :
    (NewSrcIpNetDestTcpPortRuleBuilder str src port comment action).spec =
      (match src with
        | some n => ["-s", str n]
        | none => []) ++
      (if port ≠ "" then ["-p", "tcp", "--dport", port] else []) ++
      (if comment ≠ "" then ["-m", "comment", "--comment", comment] else []) ++
      ["-j", action] := by
  cases src <;> by_cases hp : port = "" <;> by_cases hc : comment = "" <;>
    simp [NewSrcIpNetDestTcpPortRuleBuilder, SrcIpNetDestTcpPortRule.SetSource,
      SrcIpNetDestTcpPortRule.SetDestination, SrcIpNetDestTcpPortRule.SetComment,
      SrcIpNetDestTcpPortRule.SetAction, hp, hc]

/-- The factory stores its arguments in the fields unchanged. -/
theorem newBuilder_fields (str : IPNet → String) (src : Option IPNet)
    (port comment action : String) :
    let s := NewSrcIpNetDestTcpPortRuleBuilder str src port comment action
    s.src = src ∧ s.port = port ∧ s.comment = comment ∧ s.action = action := by
  cases src <;> by_cases hp : port = "" <;> by_cases hc : comment = "" <;>
    simp [NewSrcIpNetDestTcpPortRuleBuilder, SrcIpNetDestTcpPortRule.SetSource,
      SrcIpNetDestTcpPortRule.SetDestination, SrcIpNetDestTcpPortRule.SetComment,
      SrcIpNetDestTcpPortRule.SetAction, hp, hc]

/-- C1: for every source (present or absent), port, comment and action, GetSpec on
the factory's builder returns the concatenation, in this order, of `-s <cidr>` when
the source is present, `-p tcp --dport <port>` when the port is non-empty,
`-m comment --comment <comment>` when the comment is non-empty, and `-j <action>`. -/
theorem getSpec_is_ordered_concatenation (str : IPNet → String) (src : Option IPNet)
    (port comment action : String) :
    (NewSrcIpNetDestTcpPortRuleBuilder str src port comment action).GetSpec.1 =
      (match src with
        | some n => ["-s", str n]
        | none => []) ++
      (if port ≠ "" then ["-p", "tcp", "--dport", port] else []) ++
      (if comment ≠ "" then ["-m", "comment", "--comment", comment] else []) ++
      ["-j", action] := by
  simpa [SrcIpNetDestTcpPortRule.GetSpec] using newBuilder_spec str src port comment action

/-- C2: for every source, port, comment and action (an empty action included), the
factory's spec has at least two elements and its last two are `-j` and the action. -/
theorem spec_ends_with_action (str : IPNet → String) (src : Option IPNet)
    (port comment action : String) :
    let spec := (NewSrcIpNetDestTcpPortRuleBuilder str src port comment action).GetSpec.1
    2 ≤ spec.length ∧ spec.drop (spec.length - 2) = ["-j", action] := by
  intro spec
  obtain ⟨pre, hpre⟩ : ∃ pre, spec = pre ++ ["-j", action] :=
    ⟨_, newBuilder_spec str src port comment action⟩
  rw [hpre]
  constructor
  · simp
  · simp

/-- C3 fails as stated: with no source, an empty port, an empty comment and the
action `-s`, the spec is `-j -s`, so the token `-s` occurs although no source
was given. -/
theorem group_tokens_counterexample :
    ¬ groupTokensOnlyWhenPresent (fun _ => "10.0.0.0/8") none "" "" "-s" := by
  intro h
  exact h.1 (by decide) rfl

/-- C3, amended: a flag token that is not itself the value of a field occurs in
the factory's spec only when its group's field is present: `-s` only if a source
was given, `-p` and `--dport` only if the port is non-empty, `-m` and `--comment`
only if the comment is non-empty. -/
theorem group_tokens_only_when_present (str : IPNet → String) (src : Option IPNet)
    (port comment action : String) :
    let spec := (NewSrcIpNetDestTcpPortRuleBuilder str src port comment action).GetSpec.1
    ("-s" ∈ spec → ¬ isFieldValue str src port comment action "-s" → src ≠ none) ∧
    ("-p" ∈ spec → ¬ isFieldValue str src port comment action "-p" → port ≠ "") ∧
    ("--dport" ∈ spec → ¬ isFieldValue str src port comment action "--dport" → port ≠ "") ∧
    ("-m" ∈ spec → ¬ isFieldValue str src port comment action "-m" → comment ≠ "") ∧
    ("--comment" ∈ spec → ¬ isFieldValue str src port comment action "--comment" →
      comment ≠ "") := by
  intro spec
  have h : spec = _ := newBuilder_spec str src port comment action
  rw [h]
  unfold isFieldValue
  refine ⟨?_, ?_, ?_, ?_, ?_⟩
  · intro hmem hv hnone
    subst hnone
    simp at hmem hv
    tauto
  all_goals
    intro hmem hv hempty
    subst hempty
    cases src <;> simp at hmem hv <;> tauto

/-- The amended C3 at a concrete rule: source `10.0.0.0/8`, port `443`, no comment,
action `ACCEPT`; `-s` occurs, is no field value, and a source was given. -/
theorem group_tokens_only_when_present_witness :
    "-s" ∈ (NewSrcIpNetDestTcpPortRuleBuilder (fun _ => "10.0.0.0/8")
      (some ⟨[10, 0, 0, 0], [255, 0, 0, 0]⟩) "443" "" Accept).GetSpec.1 ∧
    ¬ isFieldValue (fun _ => "10.0.0.0/8") (some ⟨[10, 0, 0, 0], [255, 0, 0, 0]⟩)
      "443" "" Accept "-s" ∧
    (some ⟨[10, 0, 0, 0], [255, 0, 0, 0]⟩ : Option IPNet) ≠ none :=
  have hmem : "-s" ∈ (NewSrcIpNetDestTcpPortRuleBuilder (fun _ => "10.0.0.0/8")
      (some ⟨[10, 0, 0, 0], [255, 0, 0, 0]⟩) "443" "" Accept).GetSpec.1 := by decide
  have hv : ¬ isFieldValue (fun _ => "10.0.0.0/8") (some ⟨[10, 0, 0, 0], [255, 0, 0, 0]⟩)
      "443" "" Accept "-s" := by simp [isFieldValue, Accept]
  ⟨hmem, hv, (group_tokens_only_when_present (fun _ => "10.0.0.0/8")
      (some ⟨[10, 0, 0, 0], [255, 0, 0, 0]⟩) "443" "" Accept).1 hmem hv⟩

/-! ## The argument builders -/

/-- C4: for every chain and every rule builder whose GetSpec returns `spec`,
AppendRule returns `-A`, the chain, then `spec`: the length is that of `spec`
plus two and the elements after the first two are `spec`, in order. -/
theorem appendRule_args {σ : Type} (chain : String) (rule : RuleBuilder σ) (st : σ) :
    let spec := (rule.GetSpec st).1
    let args := (IptablesCommandArgsBuilder.AppendRule chain rule st).1
    args = ["-A", chain] ++ spec ∧ args.length = spec.length + 2 ∧
      args.drop 2 = spec ∧ ∀ i, args[i + 2]? = spec[i]? := by
  simp [IptablesCommandArgsBuilder.AppendRule]

/-- C5: for every chain, position and rule builder with spec `spec`, InsertRule
returns `-I`, the chain, the position, then `spec`, and ReplaceRule returns `-R`,
the chain, the same position string, then `spec`; both have the length of `spec`
plus three. -/
theorem insertRule_replaceRule_args {σ : Type} (chain : String) (num : Int)
    (rule : RuleBuilder σ) (st : σ) :
    let spec := (rule.GetSpec st).1
    let ins := (IptablesCommandArgsBuilder.InsertRule chain num rule st).1
    let rep := (IptablesCommandArgsBuilder.ReplaceRule chain num rule st).1
    ins = ["-I", chain, sprintfD num] ++ spec ∧
      rep = ["-R", chain, sprintfD num] ++ spec ∧
      ins[2]? = rep[2]? ∧
      ins.length = spec.length + 3 ∧ rep.length = spec.length + 3 := by
  simp [IptablesCommandArgsBuilder.InsertRule, IptablesCommandArgsBuilder.ReplaceRule]

/-- C7: for every chain and position, DeleteRuleByNum returns the three elements
`-D`, the chain and the decimal rendering of the position, with no rule-spec
element; for position 3 that is `-D <chain> 3`. -/
theorem deleteRuleByNum_args (chain : String) (num : Int) :
    IptablesCommandArgsBuilder.DeleteRuleByNum chain num = ["-D", chain, sprintfD num] ∧
      (IptablesCommandArgsBuilder.DeleteRuleByNum chain num).length = 3 ∧
      IptablesCommandArgsBuilder.DeleteRuleByNum chain 3 = ["-D", chain, "3"] := by
  refine ⟨rfl, rfl, ?_⟩
  simp [IptablesCommandArgsBuilder.DeleteRuleByNum, sprintfD, fmtUnsigned, digitByte]

/-- C8: for every source, port, comment, action and chain, CheckRuleExist on the
factory's builder returns `-C`, the chain, then exactly what GetSpec returns, and
the builder is left as it was: GetSpec after the call returns what it returned
before. -/
theorem checkRuleExist_round_trip (str : IPNet → String) (src : Option IPNet)
    (port comment action chain : String) :
    let rule := NewSrcIpNetDestTcpPortRuleBuilder str src port comment action
    let r := IptablesCommandArgsBuilder.CheckRuleExist chain
      (SrcIpNetDestTcpPortRule.methods str) rule
    r.1 = ["-C", chain] ++ rule.GetSpec.1 ∧ r.1.drop 2 = rule.GetSpec.1 ∧
      r.2 = rule ∧ r.2.GetSpec.1 = rule.GetSpec.1 := by
  simp [IptablesCommandArgsBuilder.CheckRuleExist, SrcIpNetDestTcpPortRule.methods,
    SrcIpNetDestTcpPortRule.GetSpec]

/-! ## The decimal rendering of a position -/

theorem digitByte_isDigit {d : Nat} (h : d < 10) : (digitByte d).isDigit = true := by
  interval_cases d <;> decide

theorem digitByte_toNat {d : Nat} (h : d < 10) : (digitByte d).toNat - 48 = d := by
  interval_cases d <;> decide

theorem digitByte_eq_zero {d : Nat} (h : d < 10) (h0 : digitByte d = '0') : d = 0 := by
  interval_cases d <;> first | rfl | (exact absurd h0 (by decide))

theorem digitByte_ne_minus {d : Nat} (h : d < 10) : digitByte d ≠ '-' := by
  interval_cases d <;> decide

/-- The loop only ever writes in front of the buffer it was given. -/
theorem fmtUnsigned_buf (u : Nat) (buf : List Char) :
    fmtUnsigned u buf = fmtUnsigned u [] ++ buf := by
  induction u using Nat.strong_induction_on generalizing buf with
  | _ u ih =>
    by_cases h : 10 ≤ u
    · rw [fmtUnsigned, if_pos h, ih (u / 10) (by omega)]
      conv_rhs => rw [fmtUnsigned, if_pos h, ih (u / 10) (by omega)]
      simp
    · rw [fmtUnsigned, if_neg h]
      conv_rhs => rw [fmtUnsigned, if_neg h]
      simp

theorem fmtUnsigned_small {u : Nat} (h : u < 10) : fmtUnsigned u [] = [digitByte u] := by
  rw [fmtUnsigned, if_neg (by omega)]

theorem fmtUnsigned_step {u : Nat} (h : 10 ≤ u) :
    fmtUnsigned u [] = fmtUnsigned (u / 10) [] ++ [digitByte (u % 10)] := by
  rw [fmtUnsigned, if_pos h, fmtUnsigned_buf]
  congr 3
  omega

theorem fmtUnsigned_ne_nil (u : Nat) : fmtUnsigned u [] ≠ [] := by
  by_cases h : 10 ≤ u
  · rw [fmtUnsigned_step h]; simp
  · rw [fmtUnsigned_small (by omega)]; simp

theorem fmtUnsigned_isDigit (u : Nat) : ∀ c ∈ fmtUnsigned u [], c.isDigit = true := by
  induction u using Nat.strong_induction_on with
  | _ u ih =>
    by_cases h : 10 ≤ u
    · rw [fmtUnsigned_step h]
      intro c hc
      rcases List.mem_append.mp hc with hc | hc
      · exact ih (u / 10) (by omega) c hc
      · rw [List.mem_singleton.mp hc]
        exact digitByte_isDigit (Nat.mod_lt _ (by decide))
    · rw [fmtUnsigned_small (by omega)]
      intro c hc
      rw [List.mem_singleton.mp hc]
      exact digitByte_isDigit (by omega)

theorem fmtUnsigned_head_zero (u : Nat) (h0 : (fmtUnsigned u []).head? = some '0') :
    u = 0 := by
  induction u using Nat.strong_induction_on with
  | _ u ih =>
    by_cases h : 10 ≤ u
    · rw [fmtUnsigned_step h, List.head?_append_of_ne_nil _ (fmtUnsigned_ne_nil _)] at h0
      have := ih (u / 10) (by omega) h0
      omega
    · rw [fmtUnsigned_small (by omega)] at h0
      exact digitByte_eq_zero (by omega) (by simpa using h0)

theorem readDigits_snoc (cs : List Char) (c : Char) :
    readDigits (cs ++ [c]) = 10 * readDigits cs + (c.toNat - 48) := by
  simp [readDigits, List.foldl_append]

theorem readDigits_fmtUnsigned (u : Nat) : readDigits (fmtUnsigned u []) = u := by
  induction u using Nat.strong_induction_on with
  | _ u ih =>
    by_cases h : 10 ≤ u
    · rw [fmtUnsigned_step h, readDigits_snoc, ih (u / 10) (by omega),
        digitByte_toNat (Nat.mod_lt _ (by decide))]
      omega
    · rw [fmtUnsigned_small (by omega)]
      simp [readDigits, digitByte_toNat (show u < 10 by omega)]

theorem readBase10_fmtUnsigned (u : Nat) :
    readBase10 (String.mk (fmtUnsigned u [])) = some (u : Int) := by
  have hd := fmtUnsigned_isDigit u
  have hr := readDigits_fmtUnsigned u
  have hne := fmtUnsigned_ne_nil u
  generalize fmtUnsigned u [] = cs at hd hr hne
  have hall : cs.all Char.isDigit = true := List.all_eq_true.mpr hd
  unfold readBase10
  split
  · next ds heq =>
    have hmem : '-' ∈ cs := by
      have : cs = '-' :: ds := heq
      rw [this]; simp
    exact absurd (hd _ hmem) (by decide)
  · simp [hne, hall, hr]

/-- The rendering of a natural number is a plain decimal string for it. -/
theorem isPlainDecimalOf_fmtUnsigned (u : Nat) :
    isPlainDecimalOf (String.mk (fmtUnsigned u [])) (u : Int) := by
  refine ⟨fmtUnsigned_isDigit u, ?_, readBase10_fmtUnsigned u⟩
  intro h0
  have hu : u = 0 := fmtUnsigned_head_zero u h0
  subst hu
  rw [fmtUnsigned_small (by decide)]
  rfl

/-- C6 fails as stated: `-1` is an `int64`, DeleteRuleByNum renders it as `-1`,
and that string does not consist of decimal digits only. -/
theorem position_plain_decimal_counterexample :
    isInt64 (-1) ∧
      (IptablesCommandArgsBuilder.DeleteRuleByNum "INPUT" (-1))[2]? = some "-1" ∧
      ¬ isPlainDecimalOf "-1" (-1) := by
  refine ⟨by decide, ?_, ?_⟩
  · simp [IptablesCommandArgsBuilder.DeleteRuleByNum, sprintfD, fmtUnsigned, digitByte]
  · intro h
    exact absurd (h.1 '-' (by decide)) (by decide)

/-- C6, amended: the position element of InsertRule, ReplaceRule and
DeleteRuleByNum is the signed base-10 rendering of `num`, which reads back as `num`.
For `num ≥ 0` it is a plain decimal string: only decimal digits, no leading zero
unless it is `0`. For `num < 0` it is `-` followed by the plain decimal string
of `-num`. -/
theorem position_signed_decimal {σ : Type} (chain : String) (num : Int)
    (rule : RuleBuilder σ) (st : σ) :
    (IptablesCommandArgsBuilder.InsertRule chain num rule st).1[2]? = some (sprintfD num) ∧
    (IptablesCommandArgsBuilder.ReplaceRule chain num rule st).1[2]? = some (sprintfD num) ∧
    (IptablesCommandArgsBuilder.DeleteRuleByNum chain num)[2]? = some (sprintfD num) ∧
    readBase10 (sprintfD num) = some num ∧
    (0 ≤ num → isPlainDecimalOf (sprintfD num) num) ∧
    (num < 0 → ∃ ds, (sprintfD num).data = '-' :: ds ∧
      isPlainDecimalOf (String.mk ds) (-num)) := by
  have hnonneg : 0 ≤ num → isPlainDecimalOf (sprintfD num) num := by
    intro h
    have hp := isPlainDecimalOf_fmtUnsigned num.natAbs
    rw [Int.natAbs_of_nonneg h] at hp
    simpa [sprintfD, not_lt.mpr h] using hp
  have hneg : num < 0 → ∃ ds, (sprintfD num).data = '-' :: ds ∧
      isPlainDecimalOf (String.mk ds) (-num) := by
    intro h
    refine ⟨fmtUnsigned num.natAbs [], by simp [sprintfD, h], ?_⟩
    have hp := isPlainDecimalOf_fmtUnsigned num.natAbs
    rw [Int.ofNat_natAbs_of_nonpos h.le] at hp
    exact hp
  refine ⟨by simp [IptablesCommandArgsBuilder.InsertRule],
    by simp [IptablesCommandArgsBuilder.ReplaceRule],
    by simp [IptablesCommandArgsBuilder.DeleteRuleByNum], ?_, hnonneg, hneg⟩
  rcases lt_or_le num 0 with h | h
  · obtain ⟨ds, hds, hp⟩ := hneg h
    have hds2 : ds = fmtUnsigned num.natAbs [] := by
      have : (sprintfD num).data = '-' :: fmtUnsigned num.natAbs [] := by simp [sprintfD, h]
      rw [this] at hds
      exact (List.cons.inj hds).2.symm
    have hall : ds.all Char.isDigit = true := by
      rw [hds2]; exact List.all_eq_true.mpr (fmtUnsigned_isDigit _)
    have hne : ds ≠ [] := by rw [hds2]; exact fmtUnsigned_ne_nil _
    have hrd : (readDigits ds : Int) = -num := by
      rw [hds2, readDigits_fmtUnsigned, Int.ofNat_natAbs_of_nonpos h.le]
    unfold readBase10
    rw [hds]
    simp [hne, hall, hrd]
  · exact (hnonneg h).2.2

/-- The amended C6 at position 3: it is rendered as the plain decimal string `3`. -/
theorem position_signed_decimal_witness :
    (0 : Int) ≤ 3 ∧ isPlainDecimalOf (sprintfD 3) 3 :=
  ⟨by decide, (position_signed_decimal "INPUT" 3
    (SrcIpNetDestTcpPortRule.methods (fun _ => "10.0.0.0/8"))
    (NewSrcIpNetDestTcpPortRuleBuilder (fun _ => "10.0.0.0/8") none "" "" Drop)).2.2.2.2.1
    (by decide)⟩

/-! ## Setters after construction -/

/-- C9 fails as stated: on the builder state with no source, empty port, empty
comment, empty action and an empty spec, SetAction appends `-j` and the empty
action, so the spec changes. -/
theorem setters_noop_counterexample :
    ¬ settersNoOpWhenEmpty (fun _ => "10.0.0.0/8")
      { src := none, port := "", comment := "", action := "", spec := [] } := by
  intro h
  exact absurd (h.2.2.2 rfl) (by decide)

/-- C9, amended: for every builder state, SetSource changes nothing when the source
is absent, SetDestination nothing when the port is empty and SetComment nothing when
the comment is empty; SetAction has no such guard and appends `-j <action>` to the
spec whatever the action, the empty one included. -/
theorem setters_noop_except_action (str : IPNet → String) (s : SrcIpNetDestTcpPortRule) :
    (s.src = none → s.SetSource str = s ∧ (s.SetSource str).GetSpec.1 = s.GetSpec.1) ∧
    (s.port = "" → s.SetDestination = s ∧ s.SetDestination.GetSpec.1 = s.GetSpec.1) ∧
    (s.comment = "" → s.SetComment = s ∧ s.SetComment.GetSpec.1 = s.GetSpec.1) ∧
    s.SetAction.GetSpec.1 = s.GetSpec.1 ++ ["-j", s.action] ∧
    s.SetAction.GetSpec.1 ≠ s.GetSpec.1 := by
  refine ⟨?_, ?_, ?_, rfl, ?_⟩
  · intro h
    simp [SrcIpNetDestTcpPortRule.SetSource, h]
  · intro h
    simp [SrcIpNetDestTcpPortRule.SetDestination, h]
  · intro h
    simp [SrcIpNetDestTcpPortRule.SetComment, h]
  · simp [SrcIpNetDestTcpPortRule.SetAction, SrcIpNetDestTcpPortRule.GetSpec]

/-- The amended C9 at the state with every field empty and an empty spec: the three
guarded setters leave it alone. -/
theorem setters_noop_except_action_witness :
    (SrcIpNetDestTcpPortRule.SetSource (fun _ => "10.0.0.0/8")
      { src := none, port := "", comment := "", action := "", spec := [] }).GetSpec.1 = [] ∧
    (SrcIpNetDestTcpPortRule.SetDestination
      { src := none, port := "", comment := "", action := "", spec := [] }).GetSpec.1 = [] ∧
    (SrcIpNetDestTcpPortRule.SetComment
      { src := none, port := "", comment := "", action := "", spec := [] }).GetSpec.1 = [] :=
  have h := setters_noop_except_action (fun _ => "10.0.0.0/8")
    { src := none, port := "", comment := "", action := "", spec := [] }
  ⟨(h.1 rfl).2, (h.2.1 rfl).2, (h.2.2.1 rfl).2⟩

/-- One call keeps the four fields and appends its group to the spec. -/
theorem call_appends (str : IPNet → String) (s : SrcIpNetDestTcpPortRule)
    (op : RuleBuilderOp) :
    let t := (SrcIpNetDestTcpPortRule.methods str).call s op
    t.src = s.src ∧ t.port = s.port ∧ t.comment = s.comment ∧ t.action = s.action ∧
      t.spec = s.spec ++ appendedBy str s.src s.port s.comment s.action op := by
  cases op
  · cases hs : s.src <;>
      simp [RuleBuilder.call, SrcIpNetDestTcpPortRule.methods,
        SrcIpNetDestTcpPortRule.SetSource, appendedBy, hs]
  · by_cases hp : s.port = "" <;>
      simp [RuleBuilder.call, SrcIpNetDestTcpPortRule.methods,
        SrcIpNetDestTcpPortRule.SetDestination, appendedBy, hp]
  · by_cases hc : s.comment = "" <;>
      simp [RuleBuilder.call, SrcIpNetDestTcpPortRule.methods,
        SrcIpNetDestTcpPortRule.SetComment, appendedBy, hc]
  · simp [RuleBuilder.call, SrcIpNetDestTcpPortRule.methods,
      SrcIpNetDestTcpPortRule.SetAction, appendedBy]
  · simp [RuleBuilder.call, SrcIpNetDestTcpPortRule.methods,
      SrcIpNetDestTcpPortRule.GetSpec, appendedBy]

/-- A sequence of calls keeps the four fields and appends the groups of its calls,
in order. -/
theorem calls_append (str : IPNet → String) (ops : List RuleBuilderOp)
    (s : SrcIpNetDestTcpPortRule) :
    let t := (SrcIpNetDestTcpPortRule.methods str).calls s ops
    t.src = s.src ∧ t.port = s.port ∧ t.comment = s.comment ∧ t.action = s.action ∧
      t.spec = ops.foldl
        (fun acc op => acc ++ appendedBy str s.src s.port s.comment s.action op) s.spec := by
  induction ops generalizing s with
  | nil => simp [RuleBuilder.calls]
  | cons op ops ih =>
    obtain ⟨h1, h2, h3, h4, h5⟩ := call_appends str s op
    obtain ⟨k1, k2, k3, k4, k5⟩ := ih ((SrcIpNetDestTcpPortRule.methods str).call s op)
    simp only [RuleBuilder.calls, List.foldl_cons] at k1 k2 k3 k4 k5 ⊢
    refine ⟨k1.trans h1, k2.trans h2, k3.trans h3, k4.trans h4, ?_⟩
    rw [k5, h1, h2, h3, h4, h5]

theorem foldl_append_extends {α β : Type} (f : β → List α) (ops : List β) (acc : List α) :
    ∃ rest, ops.foldl (fun acc op => acc ++ f op) acc = acc ++ rest := by
  induction ops generalizing acc with
  | nil => exact ⟨[], by simp⟩
  | cons op ops ih =>
    obtain ⟨rest, hrest⟩ := ih (acc ++ f op)
    exact ⟨f op ++ rest, by rw [List.foldl_cons, hrest, List.append_assoc]⟩

theorem foldl_append_nil {α β : Type} (f : β → List α) (ops : List β) (acc : List α)
    (h : ∀ op ∈ ops, f op = []) : ops.foldl (fun acc op => acc ++ f op) acc = acc := by
  induction ops generalizing acc with
  | nil => rfl
  | cons op ops ih =>
    rw [List.foldl_cons, h op (List.mem_cons_self _ _), List.append_nil]
    exact ih acc (fun o ho => h o (List.mem_cons_of_mem _ ho))

/-- C10 fails as stated: on the builder made with no source, empty port, empty
comment and action `DROP`, one more call of SetAction turns the spec `-j DROP`
into `-j DROP -j DROP`. -/
theorem builder_immutable_counterexample :
    (NewSrcIpNetDestTcpPortRuleBuilder (fun _ => "10.0.0.0/8") none "" "" Drop).GetSpec.1 =
      ["-j", "DROP"] ∧
    (((SrcIpNetDestTcpPortRule.methods (fun _ => "10.0.0.0/8")).calls
      (NewSrcIpNetDestTcpPortRuleBuilder (fun _ => "10.0.0.0/8") none "" "" Drop)
      [RuleBuilderOp.SetAction]).GetSpec.1 = ["-j", "DROP", "-j", "DROP"]) ∧
    ((SrcIpNetDestTcpPortRule.methods (fun _ => "10.0.0.0/8")).calls
      (NewSrcIpNetDestTcpPortRuleBuilder (fun _ => "10.0.0.0/8") none "" "" Drop)
      [RuleBuilderOp.SetAction]).GetSpec.1 ≠
    (NewSrcIpNetDestTcpPortRuleBuilder (fun _ => "10.0.0.0/8") none "" "" Drop).GetSpec.1 := by
  decide

/-- C10, amended: the factory's builder is complete but not frozen. After any
sequence of RuleBuilder calls on it, GetSpec returns the factory's spec followed by
what the calls appended, in call order: `-j <action>` for every SetAction, the
source, port and comment groups for every SetSource, SetDestination and SetComment
whose field is present, nothing for GetSpec. So the factory's spec stays the
beginning of the result,
and GetSpec returns what it returned when the factory returned whenever no call
appends anything, in particular when only GetSpec is called. -/
theorem builder_calls_append_only (str : IPNet → String) (src : Option IPNet)
    (port comment action : String) (ops : List RuleBuilderOp) :
    let rule := NewSrcIpNetDestTcpPortRuleBuilder str src port comment action
    let after := (SrcIpNetDestTcpPortRule.methods str).calls rule ops
    after.GetSpec.1 = ops.foldl
        (fun acc op => acc ++ appendedBy str src port comment action op) rule.GetSpec.1 ∧
      (∃ rest, after.GetSpec.1 = rule.GetSpec.1 ++ rest) ∧
      ((∀ op ∈ ops, appendedBy str src port comment action op = []) →
        after.GetSpec.1 = rule.GetSpec.1) ∧
      ((∀ op ∈ ops, op = RuleBuilderOp.GetSpec) → after.GetSpec.1 = rule.GetSpec.1) := by
  intro rule after
  obtain ⟨f1, f2, f3, f4⟩ := newBuilder_fields str src port comment action
  have hcalls := (calls_append str ops rule).2.2.2.2
  have hfold : after.GetSpec.1 = ops.foldl
      (fun acc op => acc ++ appendedBy str src port comment action op) rule.GetSpec.1 := by
    have : after.spec = _ := hcalls
    rw [f1, f2, f3, f4] at this
    exact this
  refine ⟨hfold, ?_, ?_, ?_⟩
  · rw [hfold]
    exact foldl_append_extends _ ops _
  · intro h
    rw [hfold]
    exact foldl_append_nil _ ops _ h
  · intro h
    rw [hfold]
    refine foldl_append_nil _ ops _ (fun op hop => ?_)
    rw [h op hop]
    rfl

/-- The amended C10 at a concrete builder: after three calls of GetSpec the spec of
the builder made with no source, empty port, empty comment and action `DROP` is
still `-j DROP`. -/
theorem builder_calls_append_only_witness :
    ((SrcIpNetDestTcpPortRule.methods (fun _ => "10.0.0.0/8")).calls
      (NewSrcIpNetDestTcpPortRuleBuilder (fun _ => "10.0.0.0/8") none "" "" Drop)
      [RuleBuilderOp.GetSpec, RuleBuilderOp.GetSpec, RuleBuilderOp.GetSpec]).GetSpec.1 =
    ["-j", "DROP"] :=
  (builder_calls_append_only (fun _ => "10.0.0.0/8") none "" "" Drop
    [RuleBuilderOp.GetSpec, RuleBuilderOp.GetSpec, RuleBuilderOp.GetSpec]).2.2.2
    (by decide)

/-! ## The manager -/

/-- The method `run` is one `SetCmd` of the program `iptables` with the given
arguments followed by one `RunWithCombinedOutput`, whose result it returns. -/
theorem run_eq {ρ ε : Type} (cmd : CmdRunner ρ ε) (i : IptablesManager ρ)
    (args : List String) :
    IptablesManager.run cmd i args =
      ((cmd.RunWithCombinedOutput (cmd.SetCmd i.r "iptables" args)).1,
        { r := (cmd.RunWithCombinedOutput (cmd.SetCmd i.r "iptables" args)).2 }) := rfl

/-- On the logging runner, `run` adds exactly one entry to the log, the program
`iptables` with the given arguments, and returns the runner's answer to it. -/
theorem run_logs_once {ε : Type} (respond : String → List String → String × Option ε)
    (i : IptablesManager RunLog) (args : List String) :
    (IptablesManager.run (loggingRunner respond) i args).1 = respond "iptables" args ∧
      (IptablesManager.run (loggingRunner respond) i args).2.r.ran =
        i.r.ran ++ [("iptables", args)] := ⟨rfl, rfl⟩

/-- C11: for every process runner, chain and rule, ChainExist returns true exactly
when running `iptables` with `-L <chain> -n` reports no error, and RuleExist returns
true exactly when running `iptables` with `-C <chain>` followed by the rule's spec
reports no error; a run that reports an error, whatever the error and the captured
output, gives false. -/
theorem exist_checks_true_iff_no_error {ρ ε σ : Type} (cmd : CmdRunner ρ ε)
    (i : IptablesManager ρ) (chain : String) (rule : RuleBuilder σ) (st : σ) :
    let chainRun := cmd.RunWithCombinedOutput (cmd.SetCmd i.r "iptables" ["-L", chain, "-n"])
    let ruleRun := cmd.RunWithCombinedOutput
      (cmd.SetCmd i.r "iptables" (["-C", chain] ++ (rule.GetSpec st).1))
    ((IptablesManager.ChainExist cmd i chain).1 = true ↔ chainRun.1.2 = none) ∧
    ((IptablesManager.RuleExist cmd i chain rule st).1 = true ↔ ruleRun.1.2 = none) ∧
    (∀ out e, chainRun.1 = (out, some e) → (IptablesManager.ChainExist cmd i chain).1 = false) ∧
    (∀ out e, ruleRun.1 = (out, some e) →
      (IptablesManager.RuleExist cmd i chain rule st).1 = false) := by
  intro chainRun ruleRun
  have hc : (IptablesManager.ChainExist cmd i chain).1 = chainRun.1.2.isNone := rfl
  have hr : (IptablesManager.RuleExist cmd i chain rule st).1 = ruleRun.1.2.isNone := rfl
  refine ⟨?_, ?_, ?_, ?_⟩
  · rw [hc]; exact Option.isNone_iff_eq_none
  · rw [hr]; exact Option.isNone_iff_eq_none
  · intro out e h
    rw [hc, h]; rfl
  · intro out e h
    rw [hr, h]; rfl

/-- C12: for every process runner and every input, each of NewChain, AppendRule,
InsertRule, ReplaceRule, DeleteRule and DeleteRuleByNum of the manager is one `run`
on the argument vector the same-named method of the argument builder returns. A
`run` stores the program `iptables` with that vector on the runner, runs it once,
and returns the runner's output text and error as they are; on the logging runner
exactly one entry is added to the log. -/
theorem manager_ops_run_builder_args {ρ ε σ : Type} (cmd : CmdRunner ρ ε)
    (i : IptablesManager ρ) (chain : String) (num : Int) (rule : RuleBuilder σ) (st : σ)
    (respond : String → List String → String × Option ε) (l : IptablesManager RunLog) :
    (∀ args, IptablesManager.run cmd i args =
      ((cmd.RunWithCombinedOutput (cmd.SetCmd i.r "iptables" args)).1,
        { r := (cmd.RunWithCombinedOutput (cmd.SetCmd i.r "iptables" args)).2 })) ∧
    (∀ args, (IptablesManager.run (loggingRunner respond) l args).1 =
        respond "iptables" args ∧
      (IptablesManager.run (loggingRunner respond) l args).2.r.ran =
        l.r.ran ++ [("iptables", args)]) ∧
    IptablesManager.NewChain cmd i chain =
      IptablesManager.run cmd i (IptablesCommandArgsBuilder.NewChain chain) ∧
    IptablesManager.AppendRule cmd i chain rule st =
      ((IptablesManager.run cmd i (IptablesCommandArgsBuilder.AppendRule chain rule st).1).1,
        (IptablesCommandArgsBuilder.AppendRule chain rule st).2,
        (IptablesManager.run cmd i (IptablesCommandArgsBuilder.AppendRule chain rule st).1).2) ∧
    IptablesManager.InsertRule cmd i chain num rule st =
      ((IptablesManager.run cmd i
          (IptablesCommandArgsBuilder.InsertRule chain num rule st).1).1,
        (IptablesCommandArgsBuilder.InsertRule chain num rule st).2,
        (IptablesManager.run cmd i
          (IptablesCommandArgsBuilder.InsertRule chain num rule st).1).2) ∧
    IptablesManager.ReplaceRule cmd i chain num rule st =
      ((IptablesManager.run cmd i
          (IptablesCommandArgsBuilder.ReplaceRule chain num rule st).1).1,
        (IptablesCommandArgsBuilder.ReplaceRule chain num rule st).2,
        (IptablesManager.run cmd i
          (IptablesCommandArgsBuilder.ReplaceRule chain num rule st).1).2) ∧
    IptablesManager.DeleteRule cmd i chain rule st =
      ((IptablesManager.run cmd i (IptablesCommandArgsBuilder.DeleteRule chain rule st).1).1,
        (IptablesCommandArgsBuilder.DeleteRule chain rule st).2,
        (IptablesManager.run cmd i (IptablesCommandArgsBuilder.DeleteRule chain rule st).1).2) ∧
    IptablesManager.DeleteRuleByNum cmd i chain num =
      IptablesManager.run cmd i (IptablesCommandArgsBuilder.DeleteRuleByNum chain num) :=
  ⟨fun args => run_eq cmd i args, fun args => run_logs_once respond l args,
    rfl, rfl, rfl, rfl, rfl, rfl⟩

/-- C13: for every chain name, the empty one included, CheckChainExist returns
`-L`, the chain, `-n` and NewChain returns `-N`, the chain; the chain is one
element, passed through as it is. -/
theorem checkChainExist_newChain_args (chain : String) :
    IptablesCommandArgsBuilder.CheckChainExist chain = ["-L", chain, "-n"] ∧
      IptablesCommandArgsBuilder.NewChain chain = ["-N", chain] ∧
      (IptablesCommandArgsBuilder.CheckChainExist chain)[1]? = some chain ∧
      (IptablesCommandArgsBuilder.NewChain chain)[1]? = some chain ∧
      IptablesCommandArgsBuilder.CheckChainExist "" = ["-L", "", "-n"] ∧
      IptablesCommandArgsBuilder.NewChain "" = ["-N", ""] :=
  ⟨rfl, rfl, rfl, rfl, rfl, rfl⟩

/-- C14: for every chain and every rule builder whose GetSpec returns `spec`,
DeleteRule returns `-D`, the chain, then `spec` in order; the length is that of
`spec` plus two. -/
theorem deleteRule_args {σ : Type} (chain : String) (rule : RuleBuilder σ) (st : σ) :
    let spec := (rule.GetSpec st).1
    let args := (IptablesCommandArgsBuilder.DeleteRule chain rule st).1
    args = ["-D", chain] ++ spec ∧ args.length = spec.length + 2 ∧
      args.drop 2 = spec ∧ ∀ k, args[k + 2]? = spec[k]? := by
  simp [IptablesCommandArgsBuilder.DeleteRule]

/-- C16: for every action, the factory's builder with no source, an empty port
and an empty comment has the spec `-j <action>`; with the action DROP that is
`-j DROP`. -/
theorem spec_of_action_only (str : IPNet → String) (action : String) :
    (NewSrcIpNetDestTcpPortRuleBuilder str none "" "" action).GetSpec.1 = ["-j", action] ∧
      (NewSrcIpNetDestTcpPortRuleBuilder str none "" "" Drop).GetSpec.1 = ["-j", "DROP"] :=
  ⟨rfl, rfl⟩

/-- C18: for every chain and rule builder, the argument vectors of CheckRuleExist,
AppendRule and DeleteRule have the same length and agree at every index but 0,
where they hold `-C`, `-A` and `-D`. -/
theorem check_append_delete_agree {σ : Type} (chain : String) (rule : RuleBuilder σ)
    (st : σ) :
    let chk := (IptablesCommandArgsBuilder.CheckRuleExist chain rule st).1
    let app := (IptablesCommandArgsBuilder.AppendRule chain rule st).1
    let del := (IptablesCommandArgsBuilder.DeleteRule chain rule st).1
    chk.length = app.length ∧ app.length = del.length ∧
      chk[0]? = some "-C" ∧ app[0]? = some "-A" ∧ del[0]? = some "-D" ∧
      (∀ k, 0 < k → chk[k]? = app[k]? ∧ app[k]? = del[k]?) ∧
      chk.drop 2 = (rule.GetSpec st).1 ∧ app.drop 2 = (rule.GetSpec st).1 ∧
      del.drop 2 = (rule.GetSpec st).1 := by
  refine ⟨by simp [IptablesCommandArgsBuilder.CheckRuleExist,
      IptablesCommandArgsBuilder.AppendRule],
    by simp [IptablesCommandArgsBuilder.AppendRule, IptablesCommandArgsBuilder.DeleteRule],
    rfl, rfl, rfl, ?_, rfl, rfl, rfl⟩
  intro k hk
  obtain ⟨j, rfl⟩ : ∃ j, k = j + 1 := ⟨k - 1, by omega⟩
  simp [IptablesCommandArgsBuilder.CheckRuleExist, IptablesCommandArgsBuilder.AppendRule,
    IptablesCommandArgsBuilder.DeleteRule]

/-! ## Scenarios and injectivity -/

/-- The IPv4 rendering of the network with address 10.0.0.0 and mask 255.0.0.0 is
the CIDR string `10.0.0.0/8`. -/
theorem ipv4NetString_ten_slash_eight :
    ipv4NetString ⟨[10, 0, 0, 0], [255, 0, 0, 0]⟩ = some "10.0.0.0/8" := by
  simp [ipv4NetString, simpleMaskLength, maskByteOnes, fmtUnsigned, digitByte]

/-- C15: when the source network 10.0.0.0/8 is rendered in CIDR notation, the
factory's builder for that source, port `443`, an empty comment and the action
ACCEPT has the spec `-s 10.0.0.0/8 -p tcp --dport 443 -j ACCEPT`; the comment
group is left out. -/
theorem scenario_source_port_accept (str : IPNet → String)
    (h : str ⟨[10, 0, 0, 0], [255, 0, 0, 0]⟩ = "10.0.0.0/8") :
    (NewSrcIpNetDestTcpPortRuleBuilder str (some ⟨[10, 0, 0, 0], [255, 0, 0, 0]⟩)
      "443" "" Accept).GetSpec.1 =
    ["-s", "10.0.0.0/8", "-p", "tcp", "--dport", "443", "-j", "ACCEPT"] := by
  have hs := newBuilder_spec str (some ⟨[10, 0, 0, 0], [255, 0, 0, 0]⟩) "443" "" Accept
  simp only [SrcIpNetDestTcpPortRule.GetSpec]
  rw [hs]
  simp [h, Accept]

/-- C15 with the IPv4 rendering as the renderer of source networks: it renders
the network 10.0.0.0/8 as `10.0.0.0/8`, and the spec is as the scenario says. -/
theorem scenario_source_port_accept_witness :
    (ipv4NetString ⟨[10, 0, 0, 0], [255, 0, 0, 0]⟩).getD "<nil>" = "10.0.0.0/8" ∧
    (NewSrcIpNetDestTcpPortRuleBuilder (fun n => (ipv4NetString n).getD "<nil>")
      (some ⟨[10, 0, 0, 0], [255, 0, 0, 0]⟩) "443" "" Accept).GetSpec.1 =
    ["-s", "10.0.0.0/8", "-p", "tcp", "--dport", "443", "-j", "ACCEPT"] :=
  have h : (ipv4NetString ⟨[10, 0, 0, 0], [255, 0, 0, 0]⟩).getD "<nil>" = "10.0.0.0/8" := by
    rw [ipv4NetString_ten_slash_eight]; rfl
  ⟨h, scenario_source_port_accept (fun n => (ipv4NetString n).getD "<nil>") h⟩

/-- C17: the spec determines the rule: if the factory's specs for two inputs are
equal, then the rendered sources (or their absence), the ports, the comments and
the actions are equal, whatever the field values are. -/
theorem spec_injective (str : IPNet → String) (src₁ src₂ : Option IPNet)
    (port₁ comment₁ action₁ port₂ comment₂ action₂ : String)
    (h : (NewSrcIpNetDestTcpPortRuleBuilder str src₁ port₁ comment₁ action₁).GetSpec.1 =
      (NewSrcIpNetDestTcpPortRuleBuilder str src₂ port₂ comment₂ action₂).GetSpec.1) :
    src₁.map str = src₂.map str ∧ port₁ = port₂ ∧ comment₁ = comment₂ ∧
      action₁ = action₂ := by
  have h₁ := newBuilder_spec str src₁ port₁ comment₁ action₁
  have h₂ := newBuilder_spec str src₂ port₂ comment₂ action₂
  simp only [SrcIpNetDestTcpPortRule.GetSpec] at h
  rw [h₁, h₂] at h
  cases src₁ <;> cases src₂ <;>
    by_cases hp₁ : port₁ = "" <;> by_cases hp₂ : port₂ = "" <;>
    by_cases hc₁ : comment₁ = "" <;> by_cases hc₂ : comment₂ = "" <;>
    simp [hp₁, hp₂, hc₁, hc₂] at h ⊢ <;> simp_all

/-- C17 at a rule whose field values look like flags: no source, port `-j`,
comment `-p`, action `-j`; equal specs, equal fields. -/
theorem spec_injective_witness :
    (NewSrcIpNetDestTcpPortRuleBuilder (fun n => (ipv4NetString n).getD "<nil>")
        none "-j" "-p" "-j").GetSpec.1 =
      (NewSrcIpNetDestTcpPortRuleBuilder (fun n => (ipv4NetString n).getD "<nil>")
        none "-j" "-p" "-j").GetSpec.1 ∧
    ((none : Option IPNet).map (fun n => (ipv4NetString n).getD "<nil>") =
        (none : Option IPNet).map (fun n => (ipv4NetString n).getD "<nil>") ∧
      "-j" = "-j" ∧ "-p" = "-p" ∧ "-j" = "-j") :=
  ⟨rfl, spec_injective (fun n => (ipv4NetString n).getD "<nil>") none none
    "-j" "-p" "-j" "-j" "-p" "-j" rfl⟩

end Iptables
